import Mathlib

/-!
Verification of the SuperWhisper recording/transcription core.

This file gives a shallow embedding of the components of the
`mrnorbu/superwhisper` repository that the specification talks about:

* the bounded audio buffer of `PortAudioRecorder`
  (`src/audio_recorder.cpp`: `add_audio_chunk`, `get_audio`, `clear`);
* the session coordinator `SuperWhisperApp`
  (`src/main.cpp`: `start_recording`, `stop_recording`, `handle_error`,
  `recover_from_error`, `process_audio_chunk`, `transcription_worker`);
* the transcription wrapper `WhisperCppWrapper::transcribe`.

Machine integers are modelled as `Int`/`Nat`; audio samples (`int16_t`) are
`Int`.  Fallible operations return `Option`: in particular a
`std::vector::erase` whose end iterator would lie past `end()` is undefined
behaviour in C++, so the embedding of `add_audio_chunk` returns `none` in
that case.  Detached threads (the auto-recovery sleep in `handle_error`, the
"No audio" status reset in `stop_recording`) are modelled by counters of
pending thread bodies plus an explicit function that runs one pending body.
-/

namespace SuperWhisper

/-! ### Audio buffer (`PortAudioRecorder`, src/audio_recorder.cpp) -/

/-- Capacity of the audio buffer: `16000 * 30` samples
(`const size_t max_buffer_size = 16000 * 30;`, audio_recorder.cpp:133). -/
def max_buffer_size : Nat := 16000 * 30

/-- Number of samples the eviction step of `add_audio_chunk` removes from the
head of the buffer (audio_recorder.cpp:137): when `size + count` exceeds the
capacity it is `size + count - max_buffer_size`, otherwise no sample is
removed. -/
def remove_count (size count : Nat) : Nat :=
  if size + count > max_buffer_size then size + count - max_buffer_size else 0

/-- Embedding of `PortAudioRecorder::add_audio_chunk`
(audio_recorder.cpp:129-143).  The C++ code erases
`[begin, begin + remove_count)` and then appends the chunk at the tail.
`vector::erase` with an end iterator past `end()` — which happens exactly
when `remove_count` exceeds the current buffer size — is undefined
behaviour, modelled as `none`. -/
def add_audio_chunk (buffer chunk : List Int) : Option (List Int) :=
  if buffer.length + chunk.length > max_buffer_size then
    if remove_count buffer.length chunk.length ≤ buffer.length then
      some (buffer.drop (remove_count buffer.length chunk.length) ++ chunk)
    else
      none
  else
    some (buffer ++ chunk)

/-- Embedding of `PortAudioRecorder::get_audio` (audio_recorder.cpp:86-89):
returns a copy of the current buffer contents. -/
def get_audio (buffer : List Int) : List Int := buffer

/-- Embedding of `PortAudioRecorder::clear` (audio_recorder.cpp:91-95):
empties the buffer (the `shrink_to_fit` memory release has no effect on the
value). -/
def clear (_buffer : List Int) : List Int := []

/-- Run a sequence of `add_audio_chunk` pushes starting from a given
buffer; `none` as soon as one push hits the out-of-bounds erase. -/
def run_pushes_from (buffer : List Int) (chunks : List (List Int)) :
    Option (List Int) :=
  List.foldlM add_audio_chunk buffer chunks

/-- Run a sequence of `add_audio_chunk` pushes starting from the empty
buffer (the state after `clear`). -/
def run_pushes (chunks : List (List Int)) : Option (List Int) :=
  run_pushes_from [] chunks

/-- The last `n` elements of a list, in order: the "most recently pushed `n`
samples" of the specification. -/
def lastN (n : Nat) (l : List Int) : List Int := l.drop (l.length - n)

/-! ### Helper lemmas about `lastN` and `add_audio_chunk` -/

theorem get_audio_id (b : List Int) : get_audio b = b := rfl

theorem lastN_length (n : Nat) (l : List Int) :
    (lastN n l).length = min n l.length := by
  unfold lastN
  rw [List.length_drop]
  omega

theorem lastN_of_le (n : Nat) (l : List Int) (h : l.length ≤ n) :
    lastN n l = l := by
  unfold lastN
  rw [Nat.sub_eq_zero_of_le h, List.drop_zero]

theorem lastN_append_absorb (n : Nat) (xs c : List Int) :
    lastN n (lastN n xs ++ c) = lastN n (xs ++ c) := by
  unfold lastN
  rw [List.drop_append_eq_append_drop, List.drop_append_eq_append_drop,
    List.drop_drop]
  have h1 : xs.length - n + ((xs.drop (xs.length - n) ++ c).length - n)
      = (xs ++ c).length - n := by
    simp only [List.length_append, List.length_drop]
    omega
  have h2 : (xs.drop (xs.length - n) ++ c).length - n
        - (xs.drop (xs.length - n)).length
      = (xs ++ c).length - n - xs.length := by
    simp only [List.length_append, List.length_drop]
    omega
  rw [h1, h2]

theorem add_audio_chunk_eq_lastN (buffer chunk : List Int)
    (h : chunk.length ≤ max_buffer_size) :
    add_audio_chunk buffer chunk
      = some (lastN max_buffer_size (buffer ++ chunk)) := by
  unfold add_audio_chunk remove_count lastN
  by_cases hc : buffer.length + chunk.length > max_buffer_size
  · have hrc : buffer.length + chunk.length - max_buffer_size
        ≤ buffer.length := by omega
    rw [if_pos hc, if_pos hc, if_pos hrc]
    rw [List.drop_append_eq_append_drop, List.length_append]
    have h2 : buffer.length + chunk.length - max_buffer_size
        - buffer.length = 0 := by omega
    rw [h2, List.drop_zero]
  · rw [if_neg hc]
    rw [List.length_append]
    have h0 : buffer.length + chunk.length - max_buffer_size = 0 := by omega
    rw [h0, List.drop_zero]

theorem run_pushes_from_eq (chunks : List (List Int)) :
    ∀ buffer : List Int, (∀ c ∈ chunks, c.length ≤ max_buffer_size) →
      buffer.length ≤ max_buffer_size →
      run_pushes_from buffer chunks
        = some (lastN max_buffer_size (buffer ++ chunks.flatten)) := by
  induction chunks with
  | nil =>
      intro buffer _ hb
      unfold run_pushes_from
      simp only [List.foldlM_nil, List.flatten_nil, List.append_nil]
      rw [lastN_of_le _ _ hb]
      rfl
  | cons c cs ih =>
      intro buffer hc hb
      have hstep : run_pushes_from buffer (c :: cs)
          = add_audio_chunk buffer c >>= fun b => run_pushes_from b cs := by
        unfold run_pushes_from
        rw [List.foldlM_cons]
      rw [hstep, add_audio_chunk_eq_lastN buffer c (hc c (by simp))]
      have hlen : (lastN max_buffer_size (buffer ++ c)).length
          ≤ max_buffer_size := by
        rw [lastN_length]
        omega
      have := ih (lastN max_buffer_size (buffer ++ c))
        (fun d hd => hc d (by simp [hd])) hlen
      simp only [Option.bind_eq_bind, Option.some_bind, this,
        lastN_append_absorb, List.flatten_cons, List.append_assoc]

/-! ### Session coordinator (`SuperWhisperApp`, src/main.cpp) -/

/-- Embedding of `enum class AppState` (superwhisper.hpp). -/
inductive AppState where
  | Ready
  | Recording
  | Transcribing
  | Error
deriving DecidableEq, Repr

/-- State of `SuperWhisperApp` (src/main.cpp) together with bookkeeping for
its detached threads and its externally observable effects.

* `pending_recoveries` counts detached auto-recovery thread bodies spawned by
  `handle_error` (main.cpp:326-331) that have not yet run;
* `pending_ready_resets` counts detached "reset status after No audio" thread
  bodies spawned by `stop_recording` (main.cpp:200-206);
* `spawned_transcriptions` counts transcription worker threads ever spawned
  by `stop_recording` (main.cpp:192);
* `delivered` is the last text handed to the output sink by
  `handle_transcription_result` (main.cpp:280-309). -/
structure App where
  state : AppState
  is_recording : Bool
  status : String
  hint : String
  last_voice_time : Option Nat
  audio : List Int
  capture_active : Bool
  pending_recoveries : Nat
  pending_ready_resets : Nat
  spawned_transcriptions : Nat
  delivered : Option String
deriving Repr

/-- The idle hint string shown next to the "Ready" status (main.cpp:59). -/
def ready_hint : String := "Press F9 anywhere\nor click to record"

/-- Embedding of `SuperWhisperApp::set_state` (main.cpp:117-122). -/
def set_state (s : AppState) (a : App) : App := { a with state := s }

/-- Embedding of `SuperWhisperApp::handle_error` (main.cpp:318-332): logs,
sets state `Error`, status "Error", and spawns a detached thread that will —
after a 3 s sleep — unconditionally set the state back to `Ready`
(no cancellation flag, no check of the current state). -/
def handle_error (a : App) : App :=
  { set_state AppState.Error a with
      status := "Error"
      hint := "Will retry in\na moment..."
      pending_recoveries := a.pending_recoveries + 1 }

/-- Runs one pending auto-recovery thread body spawned by `handle_error`
(main.cpp:327-330): after its sleep it sets state `Ready` and status
"Ready" unconditionally, whatever the app is doing at that moment. -/
def fire_recovery (a : App) : App :=
  if 0 < a.pending_recoveries then
    { a with
        state := AppState.Ready
        status := "Ready"
        hint := ready_hint
        pending_recoveries := a.pending_recoveries - 1 }
  else a

/-- Embedding of `SuperWhisperApp::recover_from_error` (main.cpp:334-338).
Note that it does not cancel any pending recovery thread. -/
def recover_from_error (a : App) : App :=
  { a with state := AppState.Ready, status := "Ready", hint := ready_hint }

/-- Embedding of `SuperWhisperApp::start_recording` (main.cpp:128-164).
`capture_start_ok` is the return value of the capture collaborator's
`audio_recorder_->start()`; `now` is the current clock reading used for
`last_voice_time_`.  The guard at main.cpp:129 rejects the request unless
the state is `Ready` and no recording is active; on capture-start failure
the code calls `handle_error` and returns. -/
def start_recording (capture_start_ok : Bool) (now : Nat) (a : App) : App :=
  if a.state ≠ AppState.Ready ∨ a.is_recording = true then a
  else
    let a1 := { a with audio := clear a.audio }
    if capture_start_ok = false then handle_error a1
    else
      { a1 with
          is_recording := true
          capture_active := true
          state := AppState.Recording
          status := "Recording..."
          hint := "Click or press F9\nto stop recording"
          last_voice_time := some now }

/-- Embedding of `SuperWhisperApp::stop_recording` (main.cpp:166-208):
no-op unless a recording is active; otherwise stop capture, join workers,
then either spawn a transcription worker (non-empty buffer) or short-circuit
to `Ready` with status "No audio" and spawn the detached status-reset
thread. -/
def stop_recording (a : App) : App :=
  if a.is_recording = false then a
  else
    let a1 := { a with is_recording := false, capture_active := false }
    if get_audio a1.audio ≠ [] then
      { a1 with
          state := AppState.Transcribing
          status := "Transcribing..."
          hint := "Processing audio\nplease wait"
          spawned_transcriptions := a1.spawned_transcriptions + 1 }
    else
      { a1 with
          state := AppState.Ready
          status := "No audio"
          hint := ready_hint
          pending_ready_resets := a1.pending_ready_resets + 1 }

/-- The maximum absolute normalized amplitude computed by the loop of
`SuperWhisperApp::process_audio_chunk` (main.cpp:269-273):
`max_amplitude = max(max_amplitude, |sample| / 32768)`, starting from `0`.

The C++ loop works in `float`, but for `int16_t` samples every intermediate
value `|s| / 32768` (numerator at most `2 ^ 15`, denominator `2 ^ 15`) is
exactly representable, so the loop computes this rational value exactly. -/
def chunk_peak (chunk : List Int) : ℚ :=
  chunk.foldl (fun (m : ℚ) (s : Int) => max m (|(s : ℚ)| / 32768)) 0

/-- Embedding of `SuperWhisperApp::process_audio_chunk` (main.cpp:265-278):
ignore the chunk unless recording; otherwise refresh `last_voice_time_` to
`now` exactly when the peak amplitude exceeds the silence threshold.

The C++ comparison is `max_amplitude > 0.01f` in `float`; for `int16_t`
samples the computed amplitudes are exactly `k / 32768` with
`0 ≤ k ≤ 32768`, and `k / 32768 > 0.01f` holds iff `k ≥ 328` iff
`k / 32768 > 1 / 100` over `ℚ`, so the rational threshold `1 / 100` is an
exact embedding of the float test. -/
def process_audio_chunk (now : Nat) (chunk : List Int) (a : App) : App :=
  if a.is_recording = false then a
  else if 1 / 100 < chunk_peak chunk then { a with last_voice_time := some now }
  else a

/-! ### Transcription (`WhisperCppWrapper::transcribe` and the worker) -/

/-- Oracle for the external whisper.cpp inference collaborator:
whether a model is loaded (`is_loaded_ && ctx_`), the return code of
`whisper_full`, and the texts of the segments it produced. -/
structure WhisperEngine where
  is_loaded : Bool
  whisper_full_code : Int
  segments : List String
deriving Repr

/-- Embedding of `WhisperCppWrapper::transcribe` (part_001:351-422):
returns the empty string when the model is not loaded, when the audio is
empty, or when `whisper_full` returns non-zero; otherwise the concatenation
of the segment texts.  (The coordinator always calls it with sample rate
16000, main.cpp:249, so the resampling branch is not taken.) -/
def transcribe (e : WhisperEngine) (audio : List Int) : String :=
  if e.is_loaded = false then ""
  else if audio = [] then ""
  else if e.whisper_full_code ≠ 0 then ""
  else String.join e.segments

/-- Embedding of `SuperWhisperApp::handle_transcription_result`
(main.cpp:280-309): deliver the text to the output sink, then return to
`Ready` (the transient "Pasted" status is immediately overwritten by
"Ready" at main.cpp:292-296). -/
def handle_transcription_result (text : String) (a : App) : App :=
  { a with
      delivered := some text
      state := AppState.Ready
      status := "Ready"
      hint := ready_hint }

/-- Embedding of `SuperWhisperApp::transcription_worker` (main.cpp:234-263):
snapshot the audio; empty snapshot is an error; otherwise transcribe and
either deliver the text or report an error, clearing the buffer afterwards.
(The component-availability check at main.cpp:236 cannot fail in this model:
both components are constructed in the `SuperWhisperApp` constructor.) -/
def transcription_worker (e : WhisperEngine) (a : App) : App :=
  if get_audio a.audio = [] then handle_error a
  else
    let text := transcribe e (get_audio a.audio)
    let a1 := if text ≠ "" then handle_transcription_result text a
              else handle_error a
    { a1 with audio := clear a1.audio }

/-- The app state right after a successful `initialize()`
(main.cpp:26-68): state `Ready`, status "Ready", nothing recorded. -/
def app0 : App :=
  { state := AppState.Ready
    is_recording := false
    status := "Ready"
    hint := ready_hint
    last_voice_time := none
    audio := []
    capture_active := false
    pending_recoveries := 0
    pending_ready_resets := 0
    spawned_transcriptions := 0
    delivered := none }

/-- Example state: an active recording with two buffered samples. -/
def app_recording : App :=
  { app0 with
      state := AppState.Recording
      is_recording := true
      capture_active := true
      audio := [5, 6]
      last_voice_time := some 1 }

/-- Example state: an active recording whose buffer is still empty. -/
def app_recording_empty : App :=
  { app0 with
      state := AppState.Recording
      is_recording := true
      capture_active := true
      last_voice_time := some 1 }

/-- Example engine oracle: no model is loaded. -/
def engine_unloaded : WhisperEngine :=
  { is_loaded := false
    whisper_full_code := 0
    segments := ["hi"] }

/-! ### Claim theorems: the audio buffer -/

/-- C1, counterexample: the claim quantifies over every push sequence whose
total exceeds the capacity, but a single chunk of `480001` samples makes
`remove_count` exceed the (empty) buffer's size, so the `erase` in
`add_audio_chunk` runs past the end of the vector (undefined behaviour,
`none` in the embedding) and no snapshot of `capacity_samples` samples is
produced. -/
theorem run_pushes_overflow_cex :
    max_buffer_size < (List.replicate 480001 (0 : Int)).length ∧
    run_pushes [List.replicate 480001 (0 : Int)] = none := by
  constructor
  · rw [List.length_replicate]
    norm_num [max_buffer_size]
  · have h : add_audio_chunk [] (List.replicate 480001 (0 : Int)) = none := by
      unfold add_audio_chunk remove_count
      rw [List.length_replicate]
      norm_num [max_buffer_size]
    unfold run_pushes run_pushes_from
    rw [List.foldlM_cons, h]
    rfl

/-- C1 (amended): for every sequence of pushed chunks each of size at most
`capacity_samples` — which holds for the actual 512-frame device callbacks —
whose total sample count exceeds `capacity_samples = 16000 * 30`, the pushes
all stay in bounds and a subsequent `get_audio` snapshot returns exactly the
most recently pushed `capacity_samples` samples in push order (FIFO eviction
of the oldest); a single chunk larger than `capacity_samples` instead drives
the eviction `erase` out of bounds. -/
theorem run_pushes_fifo_window (chunks : List (List Int))
    (hc : ∀ c ∈ chunks, c.length ≤ max_buffer_size)
    (htot : max_buffer_size < chunks.flatten.length) :
    ∃ b, run_pushes chunks = some b ∧
      get_audio b = lastN max_buffer_size chunks.flatten ∧
      (get_audio b).length = max_buffer_size := by
  refine ⟨lastN max_buffer_size chunks.flatten, ?_, get_audio_id _, ?_⟩
  · have h := run_pushes_from_eq chunks [] hc (Nat.zero_le _)
    unfold run_pushes
    rw [h]
    simp
  · rw [get_audio_id, lastN_length]
    omega

/-- C1, witness: two pushes of `250000` samples each exceed the capacity in
total, and the snapshot is the last `480000` of the `500000` samples. -/
theorem run_pushes_fifo_window_witness :
    (∀ c ∈ [List.replicate 250000 (0 : Int), List.replicate 250000 (0 : Int)],
      c.length ≤ max_buffer_size) ∧
    max_buffer_size
      < ([List.replicate 250000 (0 : Int),
          List.replicate 250000 (0 : Int)]).flatten.length ∧
    ∃ b, run_pushes [List.replicate 250000 (0 : Int),
            List.replicate 250000 (0 : Int)] = some b ∧
      get_audio b = lastN max_buffer_size
        ([List.replicate 250000 (0 : Int),
          List.replicate 250000 (0 : Int)]).flatten ∧
      (get_audio b).length = max_buffer_size :=
  ⟨by
      intro c hcmem
      simp only [List.mem_cons, List.not_mem_nil, or_false] at hcmem
      rcases hcmem with h | h <;>
        · rw [h, List.length_replicate]
          norm_num [max_buffer_size],
    by
      simp only [List.flatten_cons, List.flatten_nil, List.append_nil,
        List.length_append, List.length_replicate]
      norm_num [max_buffer_size],
    run_pushes_fifo_window _
      (by
        intro c hcmem
        simp only [List.mem_cons, List.not_mem_nil, or_false] at hcmem
        rcases hcmem with h | h <;>
          · rw [h, List.length_replicate]
            norm_num [max_buffer_size])
      (by
        simp only [List.flatten_cons, List.flatten_nil, List.append_nil,
          List.length_append, List.length_replicate]
        norm_num [max_buffer_size])⟩

/-- C2, counterexample: pushing a single chunk of `480001` samples into the
(reachable) empty buffer does not yield any in-capacity successor buffer —
the eviction `erase` is out of bounds (undefined behaviour), so neither
`len ≤ capacity_samples` nor retention of the newest chunk is guaranteed. -/
theorem capacity_invariant_cex :
    ¬ ∃ b2, add_audio_chunk [] (List.replicate 480001 (1 : Int)) = some b2 ∧
        b2.length ≤ max_buffer_size := by
  have h : add_audio_chunk [] (List.replicate 480001 (1 : Int)) = none := by
    unfold add_audio_chunk remove_count
    rw [List.length_replicate]
    norm_num [max_buffer_size]
  rintro ⟨b2, hb2, -⟩
  rw [h] at hb2
  exact Option.noConfusion hb2

/-- C2 (amended): for every buffer state and every incoming chunk of at most
`capacity_samples` samples (true of the actual 512-frame device callbacks),
`add_audio_chunk` stays in bounds and afterwards `len ≤ capacity_samples`
holds; eviction removes samples only from the head (the result is a suffix
of `old ++ chunk`) and none of the newest chunk's samples are dropped; the
invariant also holds after `clear`, and `get_audio` leaves the buffer
unchanged.  A chunk larger than `capacity_samples` instead makes the
eviction `erase` out of bounds. -/
theorem capacity_invariant (buffer chunk : List Int)
    (h : chunk.length ≤ max_buffer_size) :
    (∃ b2, add_audio_chunk buffer chunk = some b2 ∧
      b2.length ≤ max_buffer_size ∧
      (∃ keep, keep ++ chunk = b2) ∧
      (∃ k, b2 = (buffer ++ chunk).drop k)) ∧
    (clear buffer).length ≤ max_buffer_size ∧
    get_audio buffer = buffer := by
  refine ⟨⟨lastN max_buffer_size (buffer ++ chunk),
      add_audio_chunk_eq_lastN buffer chunk h, ?_, ?_, ?_⟩, ?_, rfl⟩
  · rw [lastN_length]
    omega
  · unfold lastN
    rw [List.drop_append_eq_append_drop, List.length_append]
    refine ⟨buffer.drop (buffer.length + chunk.length - max_buffer_size), ?_⟩
    have h2 : buffer.length + chunk.length - max_buffer_size - buffer.length
        = 0 := by omega
    rw [h2, List.drop_zero]
  · exact ⟨(buffer ++ chunk).length - max_buffer_size, rfl⟩
  · simp [clear, max_buffer_size]

/-- C2, witness: a full buffer of `480000` samples receiving a `512`-sample
chunk. -/
theorem capacity_invariant_witness :
    (List.replicate 512 (3 : Int)).length ≤ max_buffer_size ∧
    ((∃ b2, add_audio_chunk (List.replicate 480000 (2 : Int))
          (List.replicate 512 (3 : Int)) = some b2 ∧
        b2.length ≤ max_buffer_size ∧
        (∃ keep, keep ++ List.replicate 512 (3 : Int) = b2) ∧
        (∃ k, b2 = (List.replicate 480000 (2 : Int)
            ++ List.replicate 512 (3 : Int)).drop k)) ∧
      (clear (List.replicate 480000 (2 : Int))).length ≤ max_buffer_size ∧
      get_audio (List.replicate 480000 (2 : Int))
        = List.replicate 480000 (2 : Int)) :=
  ⟨by
      rw [List.length_replicate]
      norm_num [max_buffer_size],
    capacity_invariant _ _ (by
      rw [List.length_replicate]
      norm_num [max_buffer_size])⟩

/-- C9: for every prior buffer state, `clear()` followed by a `get_audio`
snapshot yields the empty sequence. -/
theorem clear_then_snapshot_empty (buffer : List Int) :
    get_audio (clear buffer) = [] := rfl

/-- C10, counterexample: for the empty buffer and a chunk of `480001`
samples, the eviction step computes `remove_count = 1`, which exceeds the
buffer's length `0` — the claim's bound fails for a chunk larger than
`capacity_samples`, and the `erase` would run past the end of the vector. -/
theorem remove_count_cex :
    ¬ remove_count ([] : List Int).length
        (List.replicate 480001 (2 : Int)).length ≤ ([] : List Int).length := by
  unfold remove_count
  rw [List.length_replicate]
  norm_num [max_buffer_size]

/-- C10 (amended): for every buffer state and every incoming chunk of at
most `capacity_samples` samples, the number of samples the eviction step
removes from the head is at most the current buffer length, so the `erase`
in `add_audio_chunk` stays in bounds and the operation succeeds; for a
larger chunk `remove_count` exceeds the buffer length and the `erase` is out
of bounds. -/
theorem remove_count_in_bounds (buffer chunk : List Int)
    (h : chunk.length ≤ max_buffer_size) :
    remove_count buffer.length chunk.length ≤ buffer.length ∧
    add_audio_chunk buffer chunk ≠ none := by
  constructor
  · unfold remove_count
    split
    · omega
    · omega
  · rw [add_audio_chunk_eq_lastN buffer chunk h]
    exact Option.noConfusion

/-- C10, witness: a `512`-sample chunk arriving at a full buffer stays in
bounds. -/
theorem remove_count_in_bounds_witness :
    (List.replicate 512 (5 : Int)).length ≤ max_buffer_size ∧
    (remove_count (List.replicate 480000 (4 : Int)).length
        (List.replicate 512 (5 : Int)).length
      ≤ (List.replicate 480000 (4 : Int)).length ∧
    add_audio_chunk (List.replicate 480000 (4 : Int))
        (List.replicate 512 (5 : Int)) ≠ none) :=
  ⟨by
      rw [List.length_replicate]
      norm_num [max_buffer_size],
    remove_count_in_bounds _ _ (by
      rw [List.length_replicate]
      norm_num [max_buffer_size])⟩

/-! ### Claim theorems: the session coordinator -/

/-- C3, counterexample: in the freshly initialized `Ready` state, a start
request whose capture `start()` fails does not keep the state `Ready` — the
code calls `handle_error` (main.cpp:146), which sets the state to `Error`. -/
theorem start_failure_cex :
    (start_recording false 0 app0).state = AppState.Error ∧
    AppState.Error ≠ AppState.Ready := by
  constructor
  · rfl
  · decide

/-- C3 (amended): when a start request is made in the `Ready` state (with no
recording active) and the capture collaborator's `start()` fails, the
coordinator calls `handle_error`: the state transitions to `Error` with
status "Error" and one auto-recovery thread (back to `Ready` after 3 s) is
armed; the state does not remain `Ready`. -/
theorem start_failure_enters_error (a : App) (now : Nat)
    (hs : a.state = AppState.Ready) (hr : a.is_recording = false) :
    (start_recording false now a).state = AppState.Error ∧
    (start_recording false now a).status = "Error" ∧
    (start_recording false now a).pending_recoveries
      = a.pending_recoveries + 1 := by
  unfold start_recording
  rw [if_neg (by simp [hs, hr])]
  simp [handle_error, set_state]

/-- C3, witness: the initial app state with a failing capture device. -/
theorem start_failure_enters_error_witness :
    app0.state = AppState.Ready ∧ app0.is_recording = false ∧
    ((start_recording false 7 app0).state = AppState.Error ∧
      (start_recording false 7 app0).status = "Error" ∧
      (start_recording false 7 app0).pending_recoveries
        = app0.pending_recoveries + 1) :=
  ⟨rfl, rfl, start_failure_enters_error app0 7 rfl rfl⟩

/-- C4: the code at main.cpp:326-331 spawns a detached auto-recovery thread
with no cancellation: after an error is handled, if the app leaves `Error`
via `recover_from_error` and starts a new recording, the stale thread body
still fires and overwrites the live `Recording` state and status with
`Ready`.  This evaluates the code on that failing trace. -/
theorem stale_recovery_overwrites_recording :
    ((start_recording true 3 (recover_from_error (handle_error app0))).state
        = AppState.Recording ∧
      (start_recording true 3 (recover_from_error (handle_error app0))).status
        = "Recording..." ∧
      0 < (start_recording true 3
          (recover_from_error (handle_error app0))).pending_recoveries) ∧
    (fire_recovery (start_recording true 3
        (recover_from_error (handle_error app0)))).state = AppState.Ready ∧
    (fire_recovery (start_recording true 3
        (recover_from_error (handle_error app0)))).status = "Ready" := by
  refine ⟨⟨rfl, rfl, ?_⟩, rfl, rfl⟩
  decide

/-- C5: while the state is `Recording` or `Transcribing`, a start request is
rejected by the guard at main.cpp:129 before any effect: the whole app state
— in particular the audio buffer, the status, and the state — is unchanged,
and no error is reported. -/
theorem start_rejected_while_active (a : App) (ok : Bool) (now : Nat)
    (h : a.state = AppState.Recording ∨ a.state = AppState.Transcribing) :
    start_recording ok now a = a := by
  unfold start_recording
  rcases h with h | h <;> rw [if_pos (by simp [h])]

/-- C5, witness: a start request during an active recording is a no-op. -/
theorem start_rejected_while_active_witness :
    (app_recording.state = AppState.Recording ∨
      app_recording.state = AppState.Transcribing) ∧
    start_recording true 9 app_recording = app_recording :=
  ⟨Or.inl rfl, start_rejected_while_active _ true 9 (Or.inl rfl)⟩

/-- C6: stopping an active recording whose audio buffer is empty transitions
directly to `Ready` (never `Transcribing`), reports the "No audio" status,
and spawns no transcription worker. -/
theorem stop_empty_goes_ready (a : App)
    (hrec : a.is_recording = true) (hempty : a.audio = []) :
    (stop_recording a).state = AppState.Ready ∧
    (stop_recording a).status = "No audio" ∧
    (stop_recording a).spawned_transcriptions = a.spawned_transcriptions := by
  unfold stop_recording
  rw [if_neg (by simp [hrec])]
  simp [get_audio, hempty]

/-- C6, witness: a recording with the empty buffer being stopped. -/
theorem stop_empty_goes_ready_witness :
    app_recording_empty.is_recording = true ∧
    app_recording_empty.audio = [] ∧
    ((stop_recording app_recording_empty).state = AppState.Ready ∧
      (stop_recording app_recording_empty).status = "No audio" ∧
      (stop_recording app_recording_empty).spawned_transcriptions
        = app_recording_empty.spawned_transcriptions) :=
  ⟨rfl, rfl, stop_empty_goes_ready _ rfl rfl⟩

/-! ### Claim theorems: voice activity and transcription -/

theorem foldl_max_init_le (chunk : List Int) (q : ℚ) :
    q ≤ chunk.foldl (fun (m : ℚ) (s : Int) => max m (|(s : ℚ)| / 32768)) q := by
  induction chunk generalizing q with
  | nil => exact le_refl q
  | cons c cs ih =>
      exact le_trans (le_max_left _ _) (ih (max q (|(c : ℚ)| / 32768)))

theorem foldl_max_mem_le (chunk : List Int) (q : ℚ) :
    ∀ s ∈ chunk,
      |(s : ℚ)| / 32768 ≤ chunk.foldl (fun (m : ℚ) (s : Int) => max m (|(s : ℚ)| / 32768)) q := by
  induction chunk generalizing q with
  | nil => intro s hs; exact absurd hs (List.not_mem_nil s)
  | cons c cs ih =>
      intro s hs
      rcases List.mem_cons.mp hs with h | h
      · subst h
        exact le_trans (le_max_right _ _)
          (foldl_max_init_le cs (max q (|(s : ℚ)| / 32768)))
      · exact ih (max q (|(c : ℚ)| / 32768)) s h

theorem foldl_max_attained (chunk : List Int) (q : ℚ) :
    chunk.foldl (fun (m : ℚ) (s : Int) => max m (|(s : ℚ)| / 32768)) q = q ∨
    ∃ s ∈ chunk,
      chunk.foldl (fun (m : ℚ) (s : Int) => max m (|(s : ℚ)| / 32768)) q
        = |(s : ℚ)| / 32768 := by
  induction chunk generalizing q with
  | nil => exact Or.inl rfl
  | cons c cs ih =>
      rcases ih (max q (|(c : ℚ)| / 32768)) with h | ⟨s, hs, h⟩
      · rcases max_choice q (|(c : ℚ)| / 32768) with hm | hm
        · exact Or.inl (by rw [List.foldl_cons, h, hm])
        · exact Or.inr ⟨c, List.mem_cons_self c cs,
            by rw [List.foldl_cons, h, hm]⟩
      · exact Or.inr ⟨s, List.mem_cons_of_mem c hs, by rw [List.foldl_cons, h]⟩

/-- C7: while recording, `process_audio_chunk`'s loop computes exactly the
maximum over the chunk of the normalized absolute amplitudes
`|sample| / 32768` (it bounds every sample and is either `0` or attained by
some sample), and `last_voice_time` is refreshed to the current time if and
only if that maximum exceeds the silence threshold `0.01 = 1/100`. -/
theorem voice_activity_peak (a : App) (now : Nat) (chunk : List Int)
    (hrec : a.is_recording = true) :
    (∀ s ∈ chunk, |(s : ℚ)| / 32768 ≤ chunk_peak chunk) ∧
    (chunk_peak chunk = 0 ∨
      ∃ s ∈ chunk, chunk_peak chunk = |(s : ℚ)| / 32768) ∧
    (process_audio_chunk now chunk a).last_voice_time
      = (if 1 / 100 < chunk_peak chunk then some now
          else a.last_voice_time) := by
  refine ⟨foldl_max_mem_le chunk 0, foldl_max_attained chunk 0, ?_⟩
  unfold process_audio_chunk
  rw [hrec]
  by_cases h : 1 / 100 < chunk_peak chunk
  · rw [if_pos h, if_pos h]
    simp
  · rw [if_neg h, if_neg h]
    simp

/-- C7, witness: a chunk with peak sample `400` (amplitude `400/32768 =
25/2048 > 1/100`) refreshes `last_voice_time` while recording. -/
theorem voice_activity_peak_witness :
    app_recording.is_recording = true ∧
    ((∀ s ∈ [(400 : Int), -20], |(s : ℚ)| / 32768 ≤ chunk_peak [400, -20]) ∧
      (chunk_peak [400, -20] = 0 ∨
        ∃ s ∈ [(400 : Int), -20], chunk_peak [400, -20] = |(s : ℚ)| / 32768) ∧
      (process_audio_chunk 42 [400, -20] app_recording).last_voice_time
        = (if 1 / 100 < chunk_peak [400, -20] then some 42
            else app_recording.last_voice_time)) :=
  ⟨rfl, voice_activity_peak app_recording 42 [400, -20] rfl⟩

/-- C8: whenever the inference collaborator is not loaded
(EngineUnavailable), the snapshot is empty (EmptyInput), `whisper_full`
returns non-zero (EngineError), or the segments concatenate to no text
(EmptyOutput), `transcribe` returns the empty string — never a successful
text result — and the worker takes the `handle_error` path: the coordinator
ends in the `Error` state and delivers nothing to the output sink. -/
theorem transcription_failure_error_path (e : WhisperEngine) (a : App)
    (h : e.is_loaded = false ∨ a.audio = [] ∨ e.whisper_full_code ≠ 0 ∨
      String.join e.segments = "") :
    (a.audio ≠ [] → transcribe e (get_audio a.audio) = "") ∧
    (transcription_worker e a).state = AppState.Error ∧
    (transcription_worker e a).delivered = a.delivered := by
  by_cases ha : a.audio = []
  · refine ⟨fun hne => absurd ha hne, ?_, ?_⟩ <;>
      · unfold transcription_worker
        rw [get_audio_id, if_pos ha]
        simp [handle_error, set_state]
  · have htext0 : transcribe e a.audio = "" := by
      unfold transcribe
      rcases h with h1 | h2 | h3 | h4
      · rw [if_pos h1]
      · exact absurd h2 ha
      · by_cases hl : e.is_loaded = false
        · rw [if_pos hl]
        · rw [if_neg hl, if_neg ha, if_pos h3]
      · by_cases hl : e.is_loaded = false
        · rw [if_pos hl]
        · by_cases hcode : e.whisper_full_code ≠ 0
          · rw [if_neg hl, if_neg ha, if_pos hcode]
          · rw [if_neg hl, if_neg ha, if_neg hcode]
            exact h4
    refine ⟨fun _ => by rw [get_audio_id]; exact htext0, ?_, ?_⟩ <;>
      · unfold transcription_worker
        rw [get_audio_id, if_neg ha, htext0]
        simp [handle_error, set_state, clear]

/-- C8, witness: an unloaded engine with a non-empty snapshot takes the
error path. -/
theorem transcription_failure_error_path_witness :
    (engine_unloaded.is_loaded = false ∨ app_recording.audio = [] ∨
      engine_unloaded.whisper_full_code ≠ 0 ∨
      String.join engine_unloaded.segments = "") ∧
    ((app_recording.audio ≠ [] →
        transcribe engine_unloaded (get_audio app_recording.audio) = "") ∧
      (transcription_worker engine_unloaded app_recording).state
        = AppState.Error ∧
      (transcription_worker engine_unloaded app_recording).delivered
        = app_recording.delivered) :=
  ⟨Or.inl rfl,
    transcription_failure_error_path engine_unloaded app_recording
      (Or.inl rfl)⟩

end SuperWhisper
